import Mathlib

/-!
Verification of the tree-sitter external scanner in
`src/grammar/src/scanner.c` (the line-continuation scanner of the
`morpheus` grammar).  The C functions are shallowly embedded as Lean
functions over an explicit lexer-cursor state; machine-level details
that the scanner observes (the NUL lookahead sentinel at end of input,
the skip flag of `advance` that moves the token start past trivia) are
modelled explicitly.
-/

namespace Morpheus

/-- The token categories of `enum TokenType` in scanner.c.
`LINE_CONTINUATION` is the first (and only) enumerator, so its value
is 0; `lexer->result_symbol` is a raw symbol number, kept as a `Nat`. -/
def LINE_CONTINUATION : Nat := 0

/-- Model of the borrowed tree-sitter lexer cursor (`TSLexer`): the whole
input, the cursor position `pos`, the start `tokenStart` of the current
significant token span (every `advance` that marks its character as
skippable trivia drags the token start along with the cursor, so the
reported token span is `[tokenStart, pos)`), and the `result_symbol`
field the scanner may assign. -/
structure TSLexer where
  input : List Char
  pos : Nat
  tokenStart : Nat
  result_symbol : Nat
deriving Repr, DecidableEq

/-- `lexer->lookahead`: the code point under the cursor, or the NUL
sentinel once the cursor is at (or past) the end of input. -/
def lookahead (l : TSLexer) : Char :=
  l.input.getD l.pos '\x00'

/-- `lexer->advance(lexer, skip)`: move the cursor one code point
forward; with `skip = true` the consumed character is marked
insignificant, which moves the token start together with the cursor. -/
def advance (l : TSLexer) (skip : Bool) : TSLexer :=
  if skip then { l with pos := l.pos + 1, tokenStart := l.pos + 1 }
  else { l with pos := l.pos + 1 }

/-- C `iswspace` restricted to the code points this scanner can
distinguish: the six whitespace characters of the C character
classification (space, horizontal tab, newline, vertical tab, form
feed, carriage return). -/
def iswspace (c : Char) : Bool :=
  c = ' ' || c = '\t' || c = '\n' || c = '\x0b' || c = '\x0c' || c = '\r'

/-- One-step body of the whitespace-skipping loop of `scan`
(scanner.c lines 24-27): `while (iswspace(lookahead)) { if (lookahead
== '\n') break; advance(lexer, true); }`, with the `break` folded into
the loop condition, iterated with explicit fuel.  Each iteration that
advances strictly increases `pos` and the lookahead is the NUL
sentinel (not whitespace) once `pos` reaches the end of input, so
`input.length - pos` iterations always suffice. -/
def skipWsFuel : Nat → TSLexer → TSLexer
  | 0, l => l
  | fuel + 1, l =>
    if iswspace (lookahead l) && lookahead l != '\n' then
      skipWsFuel fuel (advance l true)
    else l

/-- The whitespace-skipping loop of `scan` (scanner.c lines 24-27). -/
def skipWs (l : TSLexer) : TSLexer :=
  skipWsFuel (l.input.length - l.pos) l

/-- `tree_sitter_morpheus_external_scanner_scan` (scanner.c lines
22-45).  The opaque `payload` pointer (always NULL for this scanner)
is threaded through unchanged, as in the C code, which never touches
it; `valid_symbols` is the engine-supplied admissibility table indexed
by token category. -/
def tree_sitter_morpheus_external_scanner_scan (payload : Option Unit)
    (lexer : TSLexer) (valid_symbols : Nat → Bool) :
    Bool × Option Unit × TSLexer :=
  if valid_symbols LINE_CONTINUATION then
    let l := skipWs lexer
    if lookahead l = '\\' then
      let l1 := advance l false
      let l2 := if lookahead l1 = '\r' then advance l1 false else l1
      if lookahead l2 = '\n' then
        (true, payload, { advance l2 false with result_symbol := LINE_CONTINUATION })
      else
        (false, payload, l2)
    else
      (false, payload, l)
  else
    (false, payload, lexer)

/-- `tree_sitter_morpheus_external_scanner_create` (scanner.c line 8):
returns the NULL payload. -/
def tree_sitter_morpheus_external_scanner_create : Option Unit :=
  none

/-- `tree_sitter_morpheus_external_scanner_destroy` (scanner.c line 12):
a no-op. -/
def tree_sitter_morpheus_external_scanner_destroy (_payload : Option Unit) : Unit :=
  ()

/-- `tree_sitter_morpheus_external_scanner_serialize` (scanner.c lines
15-17): writes nothing into the caller's buffer and reports 0 bytes. -/
def tree_sitter_morpheus_external_scanner_serialize (_payload : Option Unit)
    (buffer : List Char) : Nat × List Char :=
  (0, buffer)

/-- `tree_sitter_morpheus_external_scanner_deserialize` (scanner.c lines
19-20): a no-op, returning the payload state unchanged. -/
def tree_sitter_morpheus_external_scanner_deserialize (payload : Option Unit)
    (_buffer : List Char) (_length : Nat) : Option Unit :=
  payload

/-- The significant span of the token the lexer currently delimits:
the characters between the token start and the cursor.  Characters
skipped as trivia lie before `tokenStart` and are never part of it. -/
def tokenSpan (l : TSLexer) : List Char :=
  (l.input.drop l.tokenStart).take (l.pos - l.tokenStart)

/-- A sequence of scan calls threaded over the payload handle, as the
parsing engine would perform between a serialize/deserialize pair. -/
def scanSession (payload : Option Unit)
    (calls : List (TSLexer × (Nat → Bool))) : Option Unit :=
  calls.foldl
    (fun p c => (tree_sitter_morpheus_external_scanner_scan p c.1 c.2).2.1)
    payload

/-! ### Basic lemmas about the cursor model -/

lemma iswspace_null : iswspace '\x00' = false := by decide

lemma pos_lt_of_iswspace {l : TSLexer} (h : iswspace (lookahead l) = true) :
    l.pos < l.input.length := by
  by_contra hc
  push_neg at hc
  rw [lookahead, List.getD_eq_default _ _ hc] at h
  simp [iswspace_null] at h

/-- The loop equation of `skipWs`: the fuel in `skipWs` always
suffices, so `skipWs` satisfies the defining equation of the C while
loop. -/
lemma skipWs_eq_rec (l : TSLexer) :
    skipWs l = if iswspace (lookahead l) && lookahead l != '\n' then
      skipWs (advance l true) else l := by
  unfold skipWs
  rcases hn : l.input.length - l.pos with _ | m
  · have hge : l.input.length ≤ l.pos := by omega
    have : lookahead l = '\x00' := by
      rw [lookahead, List.getD_eq_default _ _ hge]
    rw [skipWsFuel, this]
    simp [iswspace_null]
  · rw [skipWsFuel]
    by_cases hc : iswspace (lookahead l) && lookahead l != '\n'
    · rw [if_pos hc, if_pos hc]
      have hlt : l.pos < l.input.length :=
        pos_lt_of_iswspace (by simpa using (Bool.and_eq_true _ _ ▸ hc).1)
      have : (advance l true).input.length - (advance l true).pos = m := by
        simp only [advance, if_true]
        omega
      rw [this]
    · rw [if_neg hc, if_neg hc]

lemma getD_append_len (ws rest : List Char) (k : Nat) (d : Char) :
    (ws ++ rest).getD (ws.length + k) d = rest.getD k d := by
  induction ws with
  | nil => simp
  | cons c t ih =>
    simp only [List.cons_append, List.length_cons]
    rw [show t.length + 1 + k = (t.length + k) + 1 from by omega,
      List.getD_cons_succ]
    exact ih

lemma lookahead_append (ws rest : List Char) (k ts r : Nat) :
    lookahead ⟨ws ++ rest, ws.length + k, ts, r⟩ = rest.getD k '\x00' := by
  simpa only [lookahead] using getD_append_len ws rest k '\x00'

/-- `skipWs` followed from an explicit split of the input: starting at
the boundary between `pre` and `ws`, where every character of `ws` is
non-newline whitespace and `rest` starts with a loop-stopping
character, the loop consumes exactly `ws`, marking it all as trivia. -/
lemma skipWs_spec (ws : List Char) :
    ∀ (pre rest : List Char) (ts r : Nat),
    (∀ c ∈ ws, iswspace c = true ∧ c ≠ '\n') →
    (iswspace (rest.getD 0 '\x00') = false ∨ rest.getD 0 '\x00' = '\n') →
    skipWs ⟨pre ++ ws ++ rest, pre.length, ts, r⟩
      = ⟨pre ++ ws ++ rest, pre.length + ws.length,
          if ws.isEmpty then ts else pre.length + ws.length, r⟩ := by
  induction ws with
  | nil =>
    intro pre rest ts r _ hstop
    rw [skipWs_eq_rec]
    have hla : lookahead ⟨pre ++ [] ++ rest, pre.length, ts, r⟩ = rest.getD 0 '\x00' := by
      simpa using lookahead_append pre rest 0 ts r
    have hcond : (iswspace (rest.getD 0 '\x00') && rest.getD 0 '\x00' != '\n') = false := by
      rcases hstop with h | h
      · simp only [List.getD_eq_getElem?_getD] at h
        simp [h]
      · simp only [List.getD_eq_getElem?_getD] at h
        simp [h]
    rw [hla, hcond]
    simp
  | cons c t ih =>
    intro pre rest ts r hws hstop
    obtain ⟨hw, hn⟩ := hws c (by simp)
    rw [skipWs_eq_rec]
    have hla : lookahead ⟨pre ++ (c :: t) ++ rest, pre.length, ts, r⟩ = c := by
      have h := lookahead_append pre ((c :: t) ++ rest) 0 ts r
      simpa [List.append_assoc] using h
    rw [hla, if_pos (by simp [hw, bne_iff_ne, hn])]
    have hadv : advance ⟨pre ++ (c :: t) ++ rest, pre.length, ts, r⟩ true
        = ⟨(pre ++ [c]) ++ t ++ rest, (pre ++ [c]).length, pre.length + 1, r⟩ := by
      simp [advance, List.append_assoc]
    rw [hadv,
      ih (pre ++ [c]) rest (pre.length + 1) r (fun x hx => hws x (by simp [hx])) hstop]
    cases t with
    | nil => simp
    | cons a t2 =>
      simp [List.append_assoc]
      omega

/-- `skipWs` from the start of the input: the loop consumes exactly the
leading run `ws` of non-newline whitespace, all as trivia. -/
lemma skipWs_front (ws rest : List Char) (r : Nat)
    (hws : ∀ c ∈ ws, iswspace c = true ∧ c ≠ '\n')
    (hstop : iswspace (rest.getD 0 '\x00') = false ∨ rest.getD 0 '\x00' = '\n') :
    skipWs ⟨ws ++ rest, 0, 0, r⟩ = ⟨ws ++ rest, ws.length, ws.length, r⟩ := by
  have h := skipWs_spec ws [] rest 0 r hws hstop
  cases ws with
  | nil => simpa using h
  | cons c t => simpa using h

lemma skipWsFuel_input (fuel : Nat) : ∀ l : TSLexer, (skipWsFuel fuel l).input = l.input := by
  induction fuel with
  | zero => intro l; rfl
  | succ m ih =>
    intro l
    rw [skipWsFuel]
    split
    · rw [ih]; simp [advance]
    · rfl

lemma skipWsFuel_result (fuel : Nat) :
    ∀ l : TSLexer, (skipWsFuel fuel l).result_symbol = l.result_symbol := by
  induction fuel with
  | zero => intro l; rfl
  | succ m ih =>
    intro l
    rw [skipWsFuel]
    split
    · rw [ih]; simp [advance]
    · rfl

lemma skipWsFuel_pos_ge (fuel : Nat) : ∀ l : TSLexer, l.pos ≤ (skipWsFuel fuel l).pos := by
  induction fuel with
  | zero => intro l; exact Nat.le_refl _
  | succ m ih =>
    intro l
    rw [skipWsFuel]
    split
    · have h1 := ih (advance l true)
      have h2 : (advance l true).pos = l.pos + 1 := by simp [advance]
      omega
    · exact Nat.le_refl _

lemma skipWsFuel_pos_le (fuel : Nat) :
    ∀ l : TSLexer, (skipWsFuel fuel l).pos ≤ max l.pos l.input.length := by
  induction fuel with
  | zero => intro l; exact Nat.le_max_left _ _
  | succ m ih =>
    intro l
    rw [skipWsFuel]
    split
    · next hc =>
      have hlt : l.pos < l.input.length :=
        pos_lt_of_iswspace (by
          rcases Bool.and_eq_true _ _ |>.mp hc with ⟨h1, _⟩
          exact h1)
      have h1 := ih (advance l true)
      have h2 : (advance l true).pos = l.pos + 1 := by simp [advance]
      have h3 : (advance l true).input = l.input := by simp [advance]
      rw [h2, h3] at h1
      omega
    · exact Nat.le_max_left _ _

lemma skipWs_input (l : TSLexer) : (skipWs l).input = l.input :=
  skipWsFuel_input _ l

lemma skipWs_result (l : TSLexer) : (skipWs l).result_symbol = l.result_symbol :=
  skipWsFuel_result _ l

lemma skipWs_pos_ge (l : TSLexer) : l.pos ≤ (skipWs l).pos :=
  skipWsFuel_pos_ge _ l

lemma skipWs_pos_le (l : TSLexer) : (skipWs l).pos ≤ max l.pos l.input.length :=
  skipWsFuel_pos_le _ l

/-- Successful scan of a leading whitespace run followed by
backslash-newline: the run is consumed as trivia, the token spans the
two significant characters. -/
lemma scan_lf (ws rest : List Char) (r : Nat) (p : Option Unit)
    (v : Nat → Bool) (hv : v LINE_CONTINUATION = true)
    (hws : ∀ c ∈ ws, iswspace c = true ∧ c ≠ '\n') :
    tree_sitter_morpheus_external_scanner_scan p ⟨ws ++ '\\' :: '\n' :: rest, 0, 0, r⟩ v
      = (true, p,
          ⟨ws ++ '\\' :: '\n' :: rest, ws.length + 2, ws.length, LINE_CONTINUATION⟩) := by
  simp only [tree_sitter_morpheus_external_scanner_scan, hv, if_true]
  rw [skipWs_front ws ('\\' :: '\n' :: rest) r hws
    (Or.inl (by rw [List.getD_cons_zero]; decide))]
  have h0 : lookahead ⟨ws ++ '\\' :: '\n' :: rest, ws.length, ws.length, r⟩ = '\\' := by
    simpa using lookahead_append ws ('\\' :: '\n' :: rest) 0 ws.length r
  rw [h0, if_pos rfl]
  have ha1 : advance ⟨ws ++ '\\' :: '\n' :: rest, ws.length, ws.length, r⟩ false
      = ⟨ws ++ '\\' :: '\n' :: rest, ws.length + 1, ws.length, r⟩ := by
    simp [advance]
  rw [ha1]
  have h1 : lookahead ⟨ws ++ '\\' :: '\n' :: rest, ws.length + 1, ws.length, r⟩ = '\n' := by
    simpa using lookahead_append ws ('\\' :: '\n' :: rest) 1 ws.length r
  rw [h1, if_neg (show ¬(('\n' : Char) = '\r') from by decide), h1, if_pos rfl]
  simp [advance]

/-- Successful scan of a leading whitespace run followed by
backslash-CR-newline: the token spans the three significant
characters. -/
lemma scan_crlf (ws rest : List Char) (r : Nat) (p : Option Unit)
    (v : Nat → Bool) (hv : v LINE_CONTINUATION = true)
    (hws : ∀ c ∈ ws, iswspace c = true ∧ c ≠ '\n') :
    tree_sitter_morpheus_external_scanner_scan p
        ⟨ws ++ '\\' :: '\r' :: '\n' :: rest, 0, 0, r⟩ v
      = (true, p,
          ⟨ws ++ '\\' :: '\r' :: '\n' :: rest, ws.length + 3, ws.length,
            LINE_CONTINUATION⟩) := by
  simp only [tree_sitter_morpheus_external_scanner_scan, hv, if_true]
  rw [skipWs_front ws ('\\' :: '\r' :: '\n' :: rest) r hws
    (Or.inl (by rw [List.getD_cons_zero]; decide))]
  have h0 : lookahead ⟨ws ++ '\\' :: '\r' :: '\n' :: rest, ws.length, ws.length, r⟩ = '\\' := by
    simpa using lookahead_append ws ('\\' :: '\r' :: '\n' :: rest) 0 ws.length r
  rw [h0, if_pos rfl]
  have ha1 : advance ⟨ws ++ '\\' :: '\r' :: '\n' :: rest, ws.length, ws.length, r⟩ false
      = ⟨ws ++ '\\' :: '\r' :: '\n' :: rest, ws.length + 1, ws.length, r⟩ := by
    simp [advance]
  rw [ha1]
  have h1 : lookahead ⟨ws ++ '\\' :: '\r' :: '\n' :: rest, ws.length + 1, ws.length, r⟩
      = '\r' := by
    simpa using lookahead_append ws ('\\' :: '\r' :: '\n' :: rest) 1 ws.length r
  rw [h1, if_pos rfl]
  have ha2 : advance ⟨ws ++ '\\' :: '\r' :: '\n' :: rest, ws.length + 1, ws.length, r⟩ false
      = ⟨ws ++ '\\' :: '\r' :: '\n' :: rest, ws.length + 2, ws.length, r⟩ := by
    simp [advance]
  rw [ha2]
  have h2 : lookahead ⟨ws ++ '\\' :: '\r' :: '\n' :: rest, ws.length + 2, ws.length, r⟩
      = '\n' := by
    simpa using lookahead_append ws ('\\' :: '\r' :: '\n' :: rest) 2 ws.length r
  rw [h2, if_pos rfl]
  simp [advance]

/-- Failed scan: after the whitespace run and the backslash, the next
character is neither CR nor LF, so the scan fails one character past
the backslash. -/
lemma scan_fail_no_crlf (ws rest : List Char) (c : Char) (r : Nat) (p : Option Unit)
    (v : Nat → Bool) (hv : v LINE_CONTINUATION = true)
    (hws : ∀ x ∈ ws, iswspace x = true ∧ x ≠ '\n')
    (hc1 : c ≠ '\r') (hc2 : c ≠ '\n') :
    tree_sitter_morpheus_external_scanner_scan p ⟨ws ++ '\\' :: c :: rest, 0, 0, r⟩ v
      = (false, p, ⟨ws ++ '\\' :: c :: rest, ws.length + 1, ws.length, r⟩) := by
  simp only [tree_sitter_morpheus_external_scanner_scan, hv, if_true]
  rw [skipWs_front ws ('\\' :: c :: rest) r hws
    (Or.inl (by rw [List.getD_cons_zero]; decide))]
  have h0 : lookahead ⟨ws ++ '\\' :: c :: rest, ws.length, ws.length, r⟩ = '\\' := by
    simpa using lookahead_append ws ('\\' :: c :: rest) 0 ws.length r
  rw [h0, if_pos rfl]
  have ha1 : advance ⟨ws ++ '\\' :: c :: rest, ws.length, ws.length, r⟩ false
      = ⟨ws ++ '\\' :: c :: rest, ws.length + 1, ws.length, r⟩ := by
    simp [advance]
  rw [ha1]
  have h1 : lookahead ⟨ws ++ '\\' :: c :: rest, ws.length + 1, ws.length, r⟩ = c := by
    simpa using lookahead_append ws ('\\' :: c :: rest) 1 ws.length r
  rw [h1, if_neg hc1, h1, if_neg hc2]

/-- Failed scan: after the backslash a CR is consumed, but the next
character is not LF, so the scan fails two characters past the
backslash's position. -/
lemma scan_fail_cr_no_lf (ws rest : List Char) (c : Char) (r : Nat) (p : Option Unit)
    (v : Nat → Bool) (hv : v LINE_CONTINUATION = true)
    (hws : ∀ x ∈ ws, iswspace x = true ∧ x ≠ '\n')
    (hc : c ≠ '\n') :
    tree_sitter_morpheus_external_scanner_scan p
        ⟨ws ++ '\\' :: '\r' :: c :: rest, 0, 0, r⟩ v
      = (false, p, ⟨ws ++ '\\' :: '\r' :: c :: rest, ws.length + 2, ws.length, r⟩) := by
  simp only [tree_sitter_morpheus_external_scanner_scan, hv, if_true]
  rw [skipWs_front ws ('\\' :: '\r' :: c :: rest) r hws
    (Or.inl (by rw [List.getD_cons_zero]; decide))]
  have h0 : lookahead ⟨ws ++ '\\' :: '\r' :: c :: rest, ws.length, ws.length, r⟩ = '\\' := by
    simpa using lookahead_append ws ('\\' :: '\r' :: c :: rest) 0 ws.length r
  rw [h0, if_pos rfl]
  have ha1 : advance ⟨ws ++ '\\' :: '\r' :: c :: rest, ws.length, ws.length, r⟩ false
      = ⟨ws ++ '\\' :: '\r' :: c :: rest, ws.length + 1, ws.length, r⟩ := by
    simp [advance]
  rw [ha1]
  have h1 : lookahead ⟨ws ++ '\\' :: '\r' :: c :: rest, ws.length + 1, ws.length, r⟩
      = '\r' := by
    simpa using lookahead_append ws ('\\' :: '\r' :: c :: rest) 1 ws.length r
  rw [h1, if_pos rfl]
  have ha2 : advance ⟨ws ++ '\\' :: '\r' :: c :: rest, ws.length + 1, ws.length, r⟩ false
      = ⟨ws ++ '\\' :: '\r' :: c :: rest, ws.length + 2, ws.length, r⟩ := by
    simp [advance]
  rw [ha2]
  have h2 : lookahead ⟨ws ++ '\\' :: '\r' :: c :: rest, ws.length + 2, ws.length, r⟩ = c := by
    simpa using lookahead_append ws ('\\' :: '\r' :: c :: rest) 2 ws.length r
  rw [h2, if_neg hc]

/-- Failed scan: the backslash is the last character of the input; the
NUL lookahead sentinel is neither CR nor LF. -/
lemma scan_fail_backslash_eof (ws : List Char) (r : Nat) (p : Option Unit)
    (v : Nat → Bool) (hv : v LINE_CONTINUATION = true)
    (hws : ∀ x ∈ ws, iswspace x = true ∧ x ≠ '\n') :
    tree_sitter_morpheus_external_scanner_scan p ⟨ws ++ ['\\'], 0, 0, r⟩ v
      = (false, p, ⟨ws ++ ['\\'], ws.length + 1, ws.length, r⟩) := by
  simp only [tree_sitter_morpheus_external_scanner_scan, hv, if_true]
  rw [skipWs_front ws ['\\'] r hws (Or.inl (by rw [List.getD_cons_zero]; decide))]
  have h0 : lookahead ⟨ws ++ ['\\'], ws.length, ws.length, r⟩ = '\\' := by
    simpa using lookahead_append ws ['\\'] 0 ws.length r
  rw [h0, if_pos rfl]
  have ha1 : advance ⟨ws ++ ['\\'], ws.length, ws.length, r⟩ false
      = ⟨ws ++ ['\\'], ws.length + 1, ws.length, r⟩ := by
    simp [advance]
  rw [ha1]
  have h1 : lookahead ⟨ws ++ ['\\'], ws.length + 1, ws.length, r⟩ = '\x00' := by
    simpa using lookahead_append ws ['\\'] 1 ws.length r
  rw [h1, if_neg (show ¬(('\x00' : Char) = '\r') from by decide), h1,
    if_neg (show ¬(('\x00' : Char) = '\n') from by decide)]

/-- Failed scan: backslash-CR at the very end of the input; the NUL
lookahead sentinel is not LF. -/
lemma scan_fail_cr_eof (ws : List Char) (r : Nat) (p : Option Unit)
    (v : Nat → Bool) (hv : v LINE_CONTINUATION = true)
    (hws : ∀ x ∈ ws, iswspace x = true ∧ x ≠ '\n') :
    tree_sitter_morpheus_external_scanner_scan p ⟨ws ++ ['\\', '\r'], 0, 0, r⟩ v
      = (false, p, ⟨ws ++ ['\\', '\r'], ws.length + 2, ws.length, r⟩) := by
  simp only [tree_sitter_morpheus_external_scanner_scan, hv, if_true]
  rw [skipWs_front ws ['\\', '\r'] r hws (Or.inl (by rw [List.getD_cons_zero]; decide))]
  have h0 : lookahead ⟨ws ++ ['\\', '\r'], ws.length, ws.length, r⟩ = '\\' := by
    simpa using lookahead_append ws ['\\', '\r'] 0 ws.length r
  rw [h0, if_pos rfl]
  have ha1 : advance ⟨ws ++ ['\\', '\r'], ws.length, ws.length, r⟩ false
      = ⟨ws ++ ['\\', '\r'], ws.length + 1, ws.length, r⟩ := by
    simp [advance]
  rw [ha1]
  have h1 : lookahead ⟨ws ++ ['\\', '\r'], ws.length + 1, ws.length, r⟩ = '\r' := by
    simpa using lookahead_append ws ['\\', '\r'] 1 ws.length r
  rw [h1, if_pos rfl]
  have ha2 : advance ⟨ws ++ ['\\', '\r'], ws.length + 1, ws.length, r⟩ false
      = ⟨ws ++ ['\\', '\r'], ws.length + 2, ws.length, r⟩ := by
    simp [advance]
  rw [ha2]
  have h2 : lookahead ⟨ws ++ ['\\', '\r'], ws.length + 2, ws.length, r⟩ = '\x00' := by
    simpa using lookahead_append ws ['\\', '\r'] 2 ws.length r
  rw [h2, if_neg (show ¬(('\x00' : Char) = '\n') from by decide)]

/-- `scan` hands the opaque payload pointer back unchanged on every
path, as the C function never touches it. -/
lemma scan_payload (p : Option Unit) (l : TSLexer) (v : Nat → Bool) :
    (tree_sitter_morpheus_external_scanner_scan p l v).2.1 = p := by
  simp only [tree_sitter_morpheus_external_scanner_scan]
  repeat' split
  all_goals rfl

lemma scanSession_eq (calls : List (TSLexer × (Nat → Bool))) :
    ∀ p : Option Unit, scanSession p calls = p := by
  induction calls with
  | nil => intro p; rfl
  | cons c cs ih =>
    intro p
    show scanSession (tree_sitter_morpheus_external_scanner_scan p c.1 c.2).2.1 cs = p
    rw [scan_payload]
    exact ih p

/-! ### Claim theorems -/

/-- C1: for every input beginning with backslash-newline, or
backslash-CR-newline, and with the "line continuation" category
admissible in the valid-symbol set, `scan` succeeds, sets the result
symbol to `LINE_CONTINUATION`, and advances the cursor past exactly
the matched characters - 2 for backslash-LF, 3 for backslash-CR-LF -
and no others. -/
theorem scan_accepts_line_continuation (rest rest2 : List Char) (r r2 : Nat)
    (p : Option Unit) (v : Nat → Bool) (hv : v LINE_CONTINUATION = true) :
    tree_sitter_morpheus_external_scanner_scan p ⟨'\\' :: '\n' :: rest, 0, 0, r⟩ v
      = (true, p, ⟨'\\' :: '\n' :: rest, 2, 0, LINE_CONTINUATION⟩)
    ∧ tree_sitter_morpheus_external_scanner_scan p ⟨'\\' :: '\r' :: '\n' :: rest2, 0, 0, r2⟩ v
      = (true, p, ⟨'\\' :: '\r' :: '\n' :: rest2, 3, 0, LINE_CONTINUATION⟩) := by
  constructor
  · simpa using scan_lf [] rest r p v hv (by simp)
  · simpa using scan_crlf [] rest2 r2 p v hv (by simp)

/-- Witness for C1 at the concrete spec inputs. -/
theorem scan_accepts_line_continuation_witness :
    tree_sitter_morpheus_external_scanner_scan none ⟨['\\', '\n'], 0, 0, 7⟩ (fun _ => true)
      = (true, none, ⟨['\\', '\n'], 2, 0, LINE_CONTINUATION⟩)
    ∧ tree_sitter_morpheus_external_scanner_scan none ⟨['\\', '\r', '\n'], 0, 0, 7⟩
        (fun _ => true)
      = (true, none, ⟨['\\', '\r', '\n'], 3, 0, LINE_CONTINUATION⟩) :=
  scan_accepts_line_continuation [] [] 7 7 none (fun _ => true) rfl

/-- C2: when the "line continuation" category is not admissible, `scan`
fails and hands the lexer back exactly as it received it - no cursor
movement, no token-start movement, no result-symbol write - for every
input whatsoever (the result does not depend on the input at all). -/
theorem scan_not_admissible_is_noop (p : Option Unit) (l : TSLexer) (v : Nat → Bool)
    (hv : v LINE_CONTINUATION = false) :
    tree_sitter_morpheus_external_scanner_scan p l v = (false, p, l) := by
  simp [tree_sitter_morpheus_external_scanner_scan, hv]

/-- Witness for C2 at a concrete input. -/
theorem scan_not_admissible_is_noop_witness :
    tree_sitter_morpheus_external_scanner_scan none ⟨['\\', '\n'], 0, 0, 7⟩ (fun _ => false)
      = (false, none, ⟨['\\', '\n'], 0, 0, 7⟩) :=
  scan_not_admissible_is_noop none ⟨['\\', '\n'], 0, 0, 7⟩ (fun _ => false) rfl

/-- C3: with the category admissible, every leading non-newline
whitespace code point is consumed as insignificant trivia (the token
start is dragged past it), and the reported token span covers only the
backslash and the newline. -/
theorem scan_skips_leading_whitespace_as_trivia (ws rest : List Char) (r : Nat)
    (p : Option Unit) (v : Nat → Bool) (hv : v LINE_CONTINUATION = true)
    (hws : ∀ c ∈ ws, iswspace c = true ∧ c ≠ '\n') :
    tree_sitter_morpheus_external_scanner_scan p ⟨ws ++ '\\' :: '\n' :: rest, 0, 0, r⟩ v
      = (true, p,
          ⟨ws ++ '\\' :: '\n' :: rest, ws.length + 2, ws.length, LINE_CONTINUATION⟩)
    ∧ tokenSpan ⟨ws ++ '\\' :: '\n' :: rest, ws.length + 2, ws.length, LINE_CONTINUATION⟩
      = ['\\', '\n'] := by
  refine ⟨scan_lf ws rest r p v hv hws, ?_⟩
  simp only [tokenSpan]
  rw [show ws.length + 2 - ws.length = 2 from by omega, List.drop_left]
  rfl

/-- Witness for C3 at the spec's three-leading-spaces input. -/
theorem scan_skips_leading_whitespace_as_trivia_witness :
    tree_sitter_morpheus_external_scanner_scan none
        ⟨[' ', ' ', ' ', '\\', '\n'], 0, 0, 5⟩ (fun _ => true)
      = (true, none, ⟨[' ', ' ', ' ', '\\', '\n'], 5, 3, LINE_CONTINUATION⟩)
    ∧ tokenSpan ⟨[' ', ' ', ' ', '\\', '\n'], 5, 3, LINE_CONTINUATION⟩ = ['\\', '\n'] :=
  scan_skips_leading_whitespace_as_trivia [' ', ' ', ' '] [] 5 none (fun _ => true) rfl
    (by decide)

/-- C4: with the category admissible, an input whose backslash (after
any skipped whitespace) is not followed by the required newline makes
`scan` fail with the cursor left past the backslash - and past the CR,
when one was consumed - never rewound; this also holds when the input
ends right after the backslash or after backslash-CR. -/
theorem scan_missing_newline_fails_without_rewind (ws rest : List Char) (c c2 : Char)
    (r : Nat) (p : Option Unit) (v : Nat → Bool)
    (hv : v LINE_CONTINUATION = true)
    (hws : ∀ x ∈ ws, iswspace x = true ∧ x ≠ '\n')
    (hc1 : c ≠ '\r') (hc2 : c ≠ '\n') (hc3 : c2 ≠ '\n') :
    tree_sitter_morpheus_external_scanner_scan p ⟨ws ++ '\\' :: c :: rest, 0, 0, r⟩ v
      = (false, p, ⟨ws ++ '\\' :: c :: rest, ws.length + 1, ws.length, r⟩)
    ∧ tree_sitter_morpheus_external_scanner_scan p
          ⟨ws ++ '\\' :: '\r' :: c2 :: rest, 0, 0, r⟩ v
      = (false, p, ⟨ws ++ '\\' :: '\r' :: c2 :: rest, ws.length + 2, ws.length, r⟩)
    ∧ tree_sitter_morpheus_external_scanner_scan p ⟨ws ++ ['\\'], 0, 0, r⟩ v
      = (false, p, ⟨ws ++ ['\\'], ws.length + 1, ws.length, r⟩)
    ∧ tree_sitter_morpheus_external_scanner_scan p ⟨ws ++ ['\\', '\r'], 0, 0, r⟩ v
      = (false, p, ⟨ws ++ ['\\', '\r'], ws.length + 2, ws.length, r⟩) :=
  ⟨scan_fail_no_crlf ws rest c r p v hv hws hc1 hc2,
   scan_fail_cr_no_lf ws rest c2 r p v hv hws hc3,
   scan_fail_backslash_eof ws r p v hv hws,
   scan_fail_cr_eof ws r p v hv hws⟩

/-- Witness for C4 at the spec's backslash-then-x input and its CR
variants. -/
theorem scan_missing_newline_fails_without_rewind_witness :
    tree_sitter_morpheus_external_scanner_scan none ⟨['\\', 'x'], 0, 0, 9⟩ (fun _ => true)
      = (false, none, ⟨['\\', 'x'], 1, 0, 9⟩)
    ∧ tree_sitter_morpheus_external_scanner_scan none ⟨['\\', '\r', 'x'], 0, 0, 9⟩
        (fun _ => true)
      = (false, none, ⟨['\\', '\r', 'x'], 2, 0, 9⟩)
    ∧ tree_sitter_morpheus_external_scanner_scan none ⟨['\\'], 0, 0, 9⟩ (fun _ => true)
      = (false, none, ⟨['\\'], 1, 0, 9⟩)
    ∧ tree_sitter_morpheus_external_scanner_scan none ⟨['\\', '\r'], 0, 0, 9⟩ (fun _ => true)
      = (false, none, ⟨['\\', '\r'], 2, 0, 9⟩) := by
  have h := scan_missing_newline_fails_without_rewind [] [] 'x' 'x' 9 none (fun _ => true)
    rfl (by decide) (by decide) (by decide) (by decide)
  simpa using h

/-- C5: on an input starting with a bare newline (no preceding
backslash), with the category admissible, `scan` fails without
consuming anything: the whitespace skip stops at the newline without
consuming it. -/
theorem scan_bare_newline_fails_without_consuming (rest : List Char) (r : Nat)
    (p : Option Unit) (v : Nat → Bool) (hv : v LINE_CONTINUATION = true) :
    tree_sitter_morpheus_external_scanner_scan p ⟨'\n' :: rest, 0, 0, r⟩ v
      = (false, p, ⟨'\n' :: rest, 0, 0, r⟩) := by
  simp only [tree_sitter_morpheus_external_scanner_scan, hv, if_true]
  have hla : lookahead ⟨'\n' :: rest, 0, 0, r⟩ = '\n' := rfl
  rw [skipWs_eq_rec, hla,
    if_neg (show ¬((iswspace '\n' && '\n' != '\n') = true) from by decide),
    hla, if_neg (show ¬(('\n' : Char) = '\\') from by decide)]

/-- Witness for C5 at the spec's single-newline input. -/
theorem scan_bare_newline_fails_without_consuming_witness :
    tree_sitter_morpheus_external_scanner_scan none ⟨['\n'], 0, 0, 3⟩ (fun _ => true)
      = (false, none, ⟨['\n'], 0, 0, 3⟩) :=
  scan_bare_newline_fails_without_consuming [] 3 none (fun _ => true) rfl

/-- C6: `serialize` always reports 0 bytes written and leaves the
buffer untouched, `deserialize` is a no-op for every buffer and
length, and a serialize-then-deserialize round trip yields exactly the
payload handle it started from - even after an arbitrary sequence of
intervening `scan` calls threaded from the freshly created handle,
which moreover never change the handle. -/
theorem serialize_deserialize_round_trip (buf : List Char) (len : Nat)
    (calls : List (TSLexer × (Nat → Bool))) :
    tree_sitter_morpheus_external_scanner_serialize
        (scanSession tree_sitter_morpheus_external_scanner_create calls) buf = (0, buf)
    ∧ tree_sitter_morpheus_external_scanner_deserialize
        (scanSession tree_sitter_morpheus_external_scanner_create calls) buf len
      = scanSession tree_sitter_morpheus_external_scanner_create calls
    ∧ tree_sitter_morpheus_external_scanner_deserialize
        (scanSession tree_sitter_morpheus_external_scanner_create calls)
        (tree_sitter_morpheus_external_scanner_serialize
          (scanSession tree_sitter_morpheus_external_scanner_create calls) buf).2
        (tree_sitter_morpheus_external_scanner_serialize
          (scanSession tree_sitter_morpheus_external_scanner_create calls) buf).1
      = scanSession tree_sitter_morpheus_external_scanner_create calls
    ∧ scanSession tree_sitter_morpheus_external_scanner_create calls
      = tree_sitter_morpheus_external_scanner_create :=
  ⟨rfl, rfl, rfl, scanSession_eq calls _⟩

/-- C7: `scan` is bounded: beyond the position reached by the leading
whitespace skip it advances the cursor at most 3 more characters, and
the whitespace skip itself never moves the cursor past the end of the
(finite) input, so every call returns. -/
theorem scan_terminates_bounded (p : Option Unit) (l : TSLexer) (v : Nat → Bool) :
    (tree_sitter_morpheus_external_scanner_scan p l v).2.2.pos ≤ (skipWs l).pos + 3
    ∧ (skipWs l).pos ≤ max l.pos l.input.length := by
  refine ⟨?_, skipWs_pos_le l⟩
  have hge := skipWs_pos_ge l
  simp only [tree_sitter_morpheus_external_scanner_scan]
  repeat' split
  all_goals first
    | omega
    | (simp [advance]; omega)
    | simp [advance]

/-- C8: when the cursor is already at (or past) the end of the input -
the lookahead being the NUL end-of-input sentinel - `scan` with the
category admissible fails without advancing the cursor, since the
sentinel is neither whitespace nor a backslash. -/
theorem scan_empty_input_fails (p : Option Unit) (l : TSLexer) (v : Nat → Bool)
    (hpos : l.input.length ≤ l.pos) (hv : v LINE_CONTINUATION = true) :
    tree_sitter_morpheus_external_scanner_scan p l v = (false, p, l) := by
  have hla : lookahead l = '\x00' := by
    rw [lookahead, List.getD_eq_default _ _ hpos]
  simp only [tree_sitter_morpheus_external_scanner_scan, hv, if_true]
  rw [skipWs_eq_rec, hla,
    if_neg (show ¬((iswspace '\x00' && '\x00' != '\n') = true) from by decide),
    hla, if_neg (show ¬(('\x00' : Char) = '\\') from by decide)]

/-- Witness for C8 at the empty input. -/
theorem scan_empty_input_fails_witness :
    tree_sitter_morpheus_external_scanner_scan none ⟨[], 0, 0, 0⟩ (fun _ => true)
      = (false, none, ⟨[], 0, 0, 0⟩) :=
  scan_empty_input_fails none ⟨[], 0, 0, 0⟩ (fun _ => true) (by decide) rfl

/-- C9: `scan` writes the result-symbol field only on the success
path; every execution that returns failure leaves the field at
whatever value it held before the call. -/
theorem scan_failure_preserves_result_symbol (p : Option Unit) (l : TSLexer)
    (v : Nat → Bool) :
    (tree_sitter_morpheus_external_scanner_scan p l v).1 = false →
    (tree_sitter_morpheus_external_scanner_scan p l v).2.2.result_symbol
      = l.result_symbol := by
  have hres := skipWs_result l
  simp only [tree_sitter_morpheus_external_scanner_scan]
  repeat' split
  all_goals intro h
  all_goals first
    | rfl
    | (simpa [advance] using hres)
    | (simp at h)

/-- Witness for C9 at a concrete failing input with a nonzero prior
result symbol. -/
theorem scan_failure_preserves_result_symbol_witness :
    (tree_sitter_morpheus_external_scanner_scan none ⟨['x'], 0, 0, 5⟩
        (fun _ => true)).2.2.result_symbol = 5 :=
  scan_failure_preserves_result_symbol none ⟨['x'], 0, 0, 5⟩ (fun _ => true) (by decide)

/-- C10: a CR before the backslash is ordinary skippable whitespace -
as are tab, vertical tab and form feed - so for CR-backslash-newline
the scan succeeds with the CR consumed as trivia and the token span
covering only the backslash and the newline. -/
theorem scan_leading_cr_is_trivia (c : Char) (rest : List Char) (r : Nat)
    (p : Option Unit) (v : Nat → Bool) (hv : v LINE_CONTINUATION = true)
    (hc : c = '\r' ∨ c = '\t' ∨ c = '\x0b' ∨ c = '\x0c') :
    tree_sitter_morpheus_external_scanner_scan p ⟨c :: '\\' :: '\n' :: rest, 0, 0, r⟩ v
      = (true, p, ⟨c :: '\\' :: '\n' :: rest, 3, 1, LINE_CONTINUATION⟩)
    ∧ tokenSpan ⟨c :: '\\' :: '\n' :: rest, 3, 1, LINE_CONTINUATION⟩ = ['\\', '\n'] := by
  constructor
  · have h := scan_lf [c] rest r p v hv
      (by rcases hc with h | h | h | h <;> subst h <;> decide)
    simpa using h
  · rfl

/-- Witness for C10 at the CR-backslash-newline input. -/
theorem scan_leading_cr_is_trivia_witness :
    tree_sitter_morpheus_external_scanner_scan none ⟨['\r', '\\', '\n'], 0, 0, 2⟩
        (fun _ => true)
      = (true, none, ⟨['\r', '\\', '\n'], 3, 1, LINE_CONTINUATION⟩)
    ∧ tokenSpan ⟨['\r', '\\', '\n'], 3, 1, LINE_CONTINUATION⟩ = ['\\', '\n'] :=
  scan_leading_cr_is_trivia '\r' [] 2 none (fun _ => true) rfl (Or.inl rfl)

end Morpheus
